import Mathlib

/-!
Verification development for the miq rule-compilation and query-execution
engine (src/main.go). The Go source is shallowly embedded: pure logic is
translated to Lean functions, the database driver is an explicit
state-transformer parameter, and Go error values are modelled as a pair of
dynamic type and message (the dynamic type is what the Go type switch in
getErrorType inspects).
-/

namespace Miq

/-! ### Go error values

A Go error is an interface value: a concrete dynamic type plus the data it
carries. The program only ever creates errors through the pkg/errors
constructors (errors.Errorf, errors.Wrap) or receives them from external
libraries (driver, encoding/json). Every one of those concrete types has
the method Error() string. The named types declared in main.go

  type QueryExecutionError error
  type UnknownArgError error
  type SQLParseError error
  type RequestBodyParseError error

are interface types whose method set equals the method set of error, so a
conversion such as QueryExecutionError(e) does not change the dynamic type
of the value: at runtime it is the identity. -/

/-- Concrete dynamic types of error values occurring in the program:
errors.Errorf produces a fundamental error, errors.Wrap produces a
withMessage wrapper, and external libraries (database driver,
encoding/json) produce their own concrete error types. -/
inductive ErrDynType where
  | fundamental
  | withMessage
  | externalErr
deriving DecidableEq

/-- A Go error value: dynamic type plus the string its Error() method returns. -/
structure GoError where
  dynType : ErrDynType
  msg : String
deriving DecidableEq

/-- Model of errors.Errorf (pkg/errors): a fundamental error with the message. -/
def errorsErrorf (msg : String) : GoError := ⟨.fundamental, msg⟩

/-- Model of errors.Wrap (pkg/errors): Error() of the wrapper returns
the annotation, a colon and a space, then the Error() of the cause. -/
def errorsWrap (e : GoError) (msg : String) : GoError :=
  ⟨.withMessage, msg ++ ": " ++ e.msg⟩

/-- Conversion to the named interface type QueryExecutionError: the identity
at runtime (interface-to-interface conversion keeps the dynamic type). -/
def QueryExecutionError (e : GoError) : GoError := e

/-- Conversion to the named interface type UnknownArgError: identity at runtime. -/
def UnknownArgError (e : GoError) : GoError := e

/-- Conversion to the named interface type SQLParseError: identity at runtime. -/
def SQLParseError (e : GoError) : GoError := e

/-- Conversion to the named interface type RequestBodyParseError: identity at runtime. -/
def RequestBodyParseError (e : GoError) : GoError := e

/-- Whether a concrete dynamic type has the method Error() string. Every
concrete error type in the program does. -/
def hasErrorMethod : ErrDynType → Bool
  | .fundamental => true
  | .withMessage => true
  | .externalErr => true

/-- Whether a dynamic type satisfies the interface QueryExecutionError.
The method set of an interface declared as `type QueryExecutionError error`
is exactly the method set of error, namely Error() string, so satisfaction
is having that one method. -/
def implementsQueryExecutionError (t : ErrDynType) : Bool := hasErrorMethod t

/-- getErrorType from main.go: a type switch on the dynamic type of the
error. The single case `case QueryExecutionError` matches when the dynamic
type implements that interface; otherwise the fallthrough returns
"Unknown". -/
def getErrorType (e : GoError) : String :=
  if implementsQueryExecutionError e.dynType then "QueryExecutionError" else "Unknown"

/-! ### Driver values and row materialization -/

/-- A driver-native column value as produced by sqlx MapScan:
a raw byte payload or one of the other native kinds. -/
inductive DriverValue where
  | bytes (bs : List Nat)
  | int (n : Int)
  | bool (b : Bool)
  | null
deriving DecidableEq

/-- One driver row: ordered column name / native value pairs. -/
abbrev DriverRow := List (String × DriverValue)

/-- A value placed into the output row map by createMapSliceFromRows:
either the mapString wrapper around a byte payload (whose MarshalText
returns the bytes verbatim) or a native value passed through unchanged. -/
inductive OutValue where
  | mapString (bs : List Nat)
  | native (v : DriverValue)
deriving DecidableEq

/-- One materialized output row. -/
abbrev OutRow := List (String × OutValue)

/-- createMapSliceFromRows from main.go: iterate the cursor; each row scan
either fails (the loop returns the scan error) or yields a row map, whose
values are rebuilt: a byte payload value is wrapped as mapString, every
other value is copied unchanged. The cursor is modelled as the list of
per-row scan outcomes. -/
def createMapSliceFromRows : List (Except GoError DriverRow) → Except GoError (List OutRow)
  | [] => .ok []
  | .error e :: _ => .error e
  | .ok cols :: rest =>
    let newCols : OutRow := cols.map (fun kv =>
      match kv.2 with
      | .bytes str => (kv.1, OutValue.mapString str)
      | v => (kv.1, OutValue.native v))
    (createMapSliceFromRows rest).map (fun rs => newCols :: rs)

/-- How encoding/json renders one output value, kept symbolic: a byte
payload rendered through MarshalText becomes a JSON string token holding
the bytes verbatim; a bare byte slice would be rendered as a base64
string; the other kinds render natively. -/
inductive JsonToken where
  | textStr (bs : List Nat)
  | base64Str (bs : List Nat)
  | num (n : Int)
  | bool (b : Bool)
  | null
deriving DecidableEq

/-- The encoding/json rendering of an OutValue: mapString has MarshalText
returning its bytes, so it renders as a JSON string of those bytes
verbatim; a native byte slice would render as base64; native numbers,
booleans and null render natively. -/
def marshalOutValue : OutValue → JsonToken
  | .mapString bs => .textStr bs
  | .native (.bytes bs) => .base64Str bs
  | .native (.int n) => .num n
  | .native (.bool b) => .bool b
  | .native .null => .null

/-- Spec-side value coercion, following the words of the spec: if the
native value is a raw byte payload, wrap it in a marshal-as-text value;
all other native value kinds pass through unchanged. -/
def specWrapValue : DriverValue → OutValue
  | .bytes bs => .mapString bs
  | v => .native v

/-! ### Placeholder compiler (newQuery)

newQuery in main.go scans the template with the regular expression
pattern of two opening braces, a nonempty run of word characters as a
capture group, and two closing braces. FindAllStringSubmatch collects the
captured names of all non-overlapping leftmost matches, and
ReplaceAllString rewrites each of those matches to a question mark. The
RE2 engine attempts a match at each position from the left; at a given
position the pattern matches exactly when the two opening braces are
followed by a nonempty maximal run of word characters and then two
closing braces (the run is maximal because a closing brace is not a word
character). Word characters are the ASCII letters, digits and the
underscore. -/

/-- A word character in the sense of the RE2 character class backslash-w:
ASCII letters, ASCII digits, underscore. -/
def isWordChar (c : Char) : Bool := c.isAlphanum || c = '_'

/-- Attempt the placeholder pattern at the head of the character list:
two opening braces, a nonempty run of word characters, two closing
braces. Returns the captured name and the remainder after the match. -/
def tryMatchPlaceholder : List Char → Option (String × List Char)
  | '{' :: '{' :: rest =>
    (match rest.dropWhile isWordChar with
     | '}' :: '}' :: rest2 =>
       if (rest.takeWhile isWordChar).isEmpty then none
       else some (⟨rest.takeWhile isWordChar⟩, rest2)
     | _ => none)
  | _ => none

theorem tryMatchPlaceholder_length {s : List Char} {n : String} {r2 : List Char}
    (h : tryMatchPlaceholder s = some (n, r2)) : r2.length < s.length := by
  unfold tryMatchPlaceholder at h
  split at h
  · next rest =>
    split at h
    · next rest2 heq =>
      split at h
      · exact absurd h (by simp)
      · have hle : (rest.dropWhile isWordChar).length ≤ rest.length :=
          (List.dropWhile_sublist isWordChar).length_le
        rw [heq] at hle
        simp only [Option.some.injEq, Prod.mk.injEq] at h
        obtain ⟨hn, hr⟩ := h
        subst hr
        simp only [List.length_cons] at hle ⊢
        omega
    · exact absurd h (by simp)
  · exact absurd h (by simp)

/-- Structure of a successful placeholder match: the input is exactly the
two opening braces, the name, the two closing braces, then the remainder;
the name is a nonempty run of word characters. -/
theorem tryMatchPlaceholder_eq_some {s : List Char} {n : String} {r2 : List Char}
    (h : tryMatchPlaceholder s = some (n, r2)) :
    s = '{' :: '{' :: (n.data ++ '}' :: '}' :: r2) ∧
      n.data ≠ [] ∧ ∀ c ∈ n.data, isWordChar c := by
  unfold tryMatchPlaceholder at h
  split at h
  · next rest =>
    split at h
    · next rest2 heq =>
      split at h
      · exact absurd h (by simp)
      · next hne =>
        simp only [Option.some.injEq, Prod.mk.injEq] at h
        obtain ⟨hn, hr⟩ := h
        subst hr
        refine ⟨?_, ?_, ?_⟩
        · have : n.data = rest.takeWhile isWordChar := by rw [← hn]
          rw [this, List.cons.injEq, List.cons.injEq]
          refine ⟨rfl, rfl, ?_⟩
          rw [← heq, List.takeWhile_append_dropWhile]
        · have : n.data = rest.takeWhile isWordChar := by rw [← hn]
          rw [this]
          simpa [List.isEmpty_iff] using hne
        · intro c hc
          have : n.data = rest.takeWhile isWordChar := by rw [← hn]
          rw [this] at hc
          exact List.mem_takeWhile_imp hc
    · exact absurd h (by simp)
  · exact absurd h (by simp)

/-- The scan underlying FindAllStringSubmatch and ReplaceAllString: walk
left to right; at each position, if the placeholder pattern matches,
record the captured name, emit a question mark, and continue after the
match; otherwise emit the current character and continue one position to
the right. Returns the captured names in order and the rewritten text.
Structured with an explicit step budget so it is structurally recursive;
every step consumes at least one character, so a budget of the input
length is always enough. -/
def scanTemplateF (fuel : Nat) (s : List Char) : List String × List Char :=
  match fuel, s with
  | 0, s => ([], s)
  | _ + 1, [] => ([], [])
  | fuel + 1, c :: cs =>
    match tryMatchPlaceholder (c :: cs) with
    | some (name, rest2) =>
      let r := scanTemplateF fuel rest2
      (name :: r.1, '?' :: r.2)
    | none =>
      let r := scanTemplateF fuel cs
      (r.1, c :: r.2)

/-- The full scan of a template. -/
def scanTemplate (s : List Char) : List String × List Char := scanTemplateF s.length s

/-- A compiled query: the rewritten statement text held by the prepared
statement, and the ordered list of captured argument names. The prepare
step itself (db.Preparex) is external; its failure is wrapped as
SQLParseError at startup and does not affect the computed fields. -/
structure Query where
  stmt : String
  ArgKeys : List String
deriving DecidableEq

/-- newQuery from main.go, restricted to its pure part: extract the
argument names with the scan and rewrite every match to a question mark. -/
def newQuery (qs : String) : Query :=
  { stmt := ⟨(scanTemplate qs.data).2⟩, ArgKeys := (scanTemplate qs.data).1 }

/-! ### Token decomposition used to state the compiler claim -/

/-- A template token: a literal character, or a placeholder with its name. -/
inductive TemplateTok where
  | lit (c : Char)
  | ph (name : String)
deriving DecidableEq

/-- The original text of one token. -/
def renderTok : TemplateTok → List Char
  | .lit c => [c]
  | .ph n => '{' :: '{' :: (n.data ++ ['}', '}'])

/-- The original text of a token list. -/
def renderToks (ts : List TemplateTok) : List Char := (ts.map renderTok).flatten

theorem renderToks_cons (t : TemplateTok) (ts : List TemplateTok) :
    renderToks (t :: ts) = renderTok t ++ renderToks ts := by
  simp [renderToks]

/-- The rewritten text of one token: placeholders become a question mark. -/
def rewriteTok : TemplateTok → List Char
  | .lit c => [c]
  | .ph _ => ['?']

/-- The rewritten text of a token list. -/
def rewriteToks (ts : List TemplateTok) : List Char := (ts.map rewriteTok).flatten

theorem rewriteToks_cons (t : TemplateTok) (ts : List TemplateTok) :
    rewriteToks (t :: ts) = rewriteTok t ++ rewriteToks ts := by
  simp [rewriteToks]

/-- The placeholder names of a token list, in order, duplicates kept. -/
def phNames : List TemplateTok → List String
  | [] => []
  | .lit _ :: ts => phNames ts
  | .ph n :: ts => n :: phNames ts

/-- Whether a token is a placeholder. -/
def isPh : TemplateTok → Bool
  | .ph _ => true
  | .lit _ => false

/-- Well-formedness of a token: a placeholder name is a nonempty run of
word characters. -/
def wfTok : TemplateTok → Prop
  | .lit _ => True
  | .ph n => n.data ≠ [] ∧ ∀ c ∈ n.data, isWordChar c

/-- The decomposition is the one the left-to-right scan produces: at the
position of every literal token, the placeholder pattern does not match
(so no occurrence of a placeholder is missed by the scan). -/
def leftmostScan : List TemplateTok → Prop
  | [] => True
  | .lit c :: ts => tryMatchPlaceholder (c :: renderToks ts) = none ∧ leftmostScan ts
  | .ph _ :: ts => leftmostScan ts

theorem phNames_length (ts : List TemplateTok) :
    (phNames ts).length = (ts.filter isPh).length := by
  induction ts with
  | nil => rfl
  | cons t ts ih =>
    cases t with
    | lit c => simpa [phNames, isPh, List.filter] using ih
    | ph n => simpa [phNames, isPh, List.filter] using ih

/-- Any step budget of at least the input length yields the same scan;
stated through the token decomposition below. -/
theorem scanTemplateF_spec (fuel : Nat) : ∀ s : List Char, s.length ≤ fuel →
    ∃ ts : List TemplateTok,
      renderToks ts = s ∧
      scanTemplateF fuel s = (phNames ts, rewriteToks ts) ∧
      (∀ t ∈ ts, wfTok t) ∧ leftmostScan ts := by
  induction fuel with
  | zero =>
    intro s hs
    have : s = [] := List.length_eq_zero.mp (Nat.le_zero.mp hs)
    subst this
    exact ⟨[], rfl, rfl, by simp, trivial⟩
  | succ fuel ih =>
    intro s hs
    match s with
    | [] => exact ⟨[], rfl, rfl, by simp, trivial⟩
    | c :: cs =>
      match h : tryMatchPlaceholder (c :: cs) with
      | some (name, rest2) =>
        have hlt : rest2.length < (c :: cs).length := tryMatchPlaceholder_length h
        have hle : rest2.length ≤ fuel := by
          simp only [List.length_cons] at hlt hs
          omega
        obtain ⟨ts, hrend, hscan, hwf, hleft⟩ := ih rest2 hle
        obtain ⟨hsEq, hne, hwords⟩ := tryMatchPlaceholder_eq_some h
        refine ⟨.ph name :: ts, ?_, ?_, ?_, ?_⟩
        · rw [renderToks_cons, hrend, hsEq]
          simp [renderTok]
        · simp only [scanTemplateF, h, hscan]
          rw [rewriteToks_cons]
          rfl
        · intro t ht
          rcases List.mem_cons.mp ht with h1 | h1
          · subst h1; exact ⟨hne, hwords⟩
          · exact hwf t h1
        · exact hleft
      | none =>
        have hle : cs.length ≤ fuel := by
          simp only [List.length_cons] at hs
          omega
        obtain ⟨ts, hrend, hscan, hwf, hleft⟩ := ih cs hle
        refine ⟨.lit c :: ts, ?_, ?_, ?_, ?_⟩
        · rw [renderToks_cons, hrend]
          rfl
        · simp only [scanTemplateF, h, hscan]
          rw [rewriteToks_cons]
          rfl
        · intro t ht
          rcases List.mem_cons.mp ht with h1 | h1
          · subst h1; trivial
          · exact hwf t h1
        · refine ⟨?_, hleft⟩
          rw [hrend]
          exact h

/-- The scan is characterized by a token decomposition: the tokens render
to the input, the names are the placeholder names in order, the rewritten
text replaces each placeholder by a question mark, names are nonempty
word runs, and no placeholder occurrence is missed. -/
theorem scanTemplate_spec (s : List Char) :
    ∃ ts : List TemplateTok,
      renderToks ts = s ∧
      scanTemplate s = (phNames ts, rewriteToks ts) ∧
      (∀ t ∈ ts, wfTok t) ∧ leftmostScan ts :=
  scanTemplateF_spec s.length s (Nat.le_refl _)

/-! ### Parameter resolver (createParamMap) -/

/-- A parameter value: a string (path segments and URL query values are
strings), or a JSON-decoded body value. JSON numbers decode to float64 in
Go; none of the verified claims depend on numeric semantics, so numbers
are carried as integers here. -/
inductive Value where
  | str (s : String)
  | num (n : Int)
  | bool (b : Bool)
  | null
deriving DecidableEq

/-- The Go map in createParamMap, as a lookup function. -/
abbrev ParamMap := String → Option Value

/-- The empty map. -/
def ParamMap.empty : ParamMap := fun _ => none

/-- Go map assignment: result[k] = v. -/
def ParamMap.insert (m : ParamMap) (k : String) (v : Value) : ParamMap :=
  fun k2 => if k2 = k then some v else m k2

/-- Outcome of json.NewDecoder(req.Body).Decode on the request body,
supplied by the external encoding/json library: io.EOF for an empty body,
a decode failure, or a decoded one-level object. -/
inductive BodyDecodeResult where
  | eof
  | failed (msg : String)
  | object (fields : List (String × Value))

/-- The request data the handler consumes: the path parameters extracted
by the router (ordered key/value pairs), the body decode outcome, and the
parsed URL query (each key with its ordered value list, keys distinct as
produced by url.Values). -/
structure Request where
  pathParams : List (String × String)
  body : BodyDecodeResult
  urlQuery : List (String × List String)

/-- The URL query loop of createParamMap: for each key assign the first
value of its list. A key with an empty value list cannot be produced by
URL parsing; it is modelled as assigning nothing. -/
def applyUrlQuery (q : List (String × List String)) (m : ParamMap) : ParamMap :=
  q.foldl (fun m p =>
    match p.2 with
    | [] => m
    | v :: _ => m.insert p.1 (Value.str v)) m

/-- createParamMap from main.go: start from the path parameters, then, if
a body decoded, overwrite with its fields (a decode failure is returned
as RequestBodyParseError, an empty body contributes nothing), then
overwrite with the URL query values. -/
def createParamMap (req : Request) : Except GoError ParamMap :=
  let result := req.pathParams.foldl
    (fun m p => m.insert p.1 (Value.str p.2)) ParamMap.empty
  match req.body with
  | .failed msg =>
    .error (RequestBodyParseError (errorsWrap ⟨.externalErr, msg⟩
      "request body must be only 1 hieralchical key/value pairs"))
  | .eof => .ok (applyUrlQuery req.urlQuery result)
  | .object fields =>
    .ok (applyUrlQuery req.urlQuery
      (fields.foldl (fun m p => m.insert p.1 p.2) result))

/-! ### Execution engine -/

/-- The database driver, the external collaborator behind sqlx: running a
prepared statement text with bound arguments against a database state
either fails or yields a result cursor (the per-row scan outcomes) and
the updated state. A failing statement is modelled as leaving the state
unchanged (statement atomicity of the backend). -/
structure Driver (σ : Type) where
  run : String → List Value → σ → Except GoError (List (Except GoError DriverRow) × σ)

/-- The sqlx.Queryer the engine operates on: either the shared database
handle, or an open transaction carrying the state observed at Beginx (to
which a rollback returns) and its working state. -/
inductive Queryer (σ : Type) where
  | db (s : σ)
  | tx (snapshot : σ) (s : σ)

/-- The state a statement executes against. -/
def Queryer.cur {σ : Type} : Queryer σ → σ
  | .db s => s
  | .tx _ s => s

/-- Updating the working state after a statement ran. -/
def Queryer.setCur {σ : Type} : Queryer σ → σ → Queryer σ
  | .db _, s => .db s
  | .tx snap _, s => .tx snap s

/-- rollbackPossibly from main.go, read as the observable database state
afterwards: a transaction is rolled back to its snapshot; on the plain
handle nothing happens. -/
def rollbackPossibly {σ : Type} : Queryer σ → σ
  | .db s => s
  | .tx snap _ => snap

/-- commitPossibly from main.go, read as the observable database state
afterwards: a transaction commits its working state; on the plain handle
nothing happens. -/
def commitPossibly {σ : Type} : Queryer σ → σ
  | .db s => s
  | .tx _ s => s

/-- The argument-building loop of Query.ExecuteWithArgMap: bind each
ArgKey in order to the parameter of that name, failing with
UnknownArgError on the first name absent from the map. -/
def buildArgs (argKeys : List String) (params : ParamMap) : Except GoError (List Value) :=
  match argKeys with
  | [] => .ok []
  | k :: ks =>
    match params k with
    | none => .error (UnknownArgError (errorsErrorf ("unknown argument name: " ++ k)))
    | some v => (buildArgs ks params).map (fun args => v :: args)

/-- Query.ExecuteWithArgMap from main.go: build the argument list, then
run the prepared statement through the driver. -/
def Query.ExecuteWithArgMap {σ : Type} (drv : Driver σ) (q : Query) (params : ParamMap)
    (s : σ) : Except GoError (List (Except GoError DriverRow) × σ) :=
  match buildArgs q.ArgKeys params with
  | .error e => .error e
  | .ok args => drv.run q.stmt args s

/-- executeRowMaps from main.go: execute one query and materialize its
rows, wrapping either failure as QueryExecutionError. On an execution
failure the state is unchanged; a materialization failure happens after
the statement ran. -/
def executeRowMaps {σ : Type} (drv : Driver σ) (q : Query) (paramMap : ParamMap)
    (op : Queryer σ) : Except GoError (List OutRow) × Queryer σ :=
  match q.ExecuteWithArgMap drv paramMap op.cur with
  | .error e =>
    (.error (QueryExecutionError (errorsWrap e "failed to execute query")), op)
  | .ok (cursor, s2) =>
    match createMapSliceFromRows cursor with
    | .error e =>
      (.error (QueryExecutionError (errorsWrap e "failed to create map slice from results")),
        op.setCur s2)
    | .ok res => (.ok res, op.setCur s2)

/-- executeQueriesRowMaps from main.go: execute the queries in order,
concatenating their row maps, stopping at the first failure. -/
def executeQueriesRowMaps {σ : Type} (drv : Driver σ) (qs : List Query)
    (paramMap : ParamMap) (op : Queryer σ) : Except GoError (List OutRow) × Queryer σ :=
  match qs with
  | [] => (.ok [], op)
  | q :: rest =>
    match executeRowMaps drv q paramMap op with
    | (.error e, op2) => (.error e, op2)
    | (.ok rows, op2) =>
      match executeQueriesRowMaps drv rest paramMap op2 with
      | (.error e, op3) => (.error e, op3)
      | (.ok more, op3) => (.ok (rows ++ more), op3)

/-- executeQueries from main.go: run the queries and discard the rows. -/
def executeQueries {σ : Type} (drv : Driver σ) (qs : List Query) (paramMap : ParamMap)
    (op : Queryer σ) : Except GoError Unit × Queryer σ :=
  match executeQueriesRowMaps drv qs paramMap op with
  | (.error e, op2) => (.error e, op2)
  | (.ok _, op2) => (.ok (), op2)

/-- A query set: the compiled before, main and after query lists plus the
transaction flag of the rule. -/
structure QuerySet where
  Befores : List Query
  Queries : List Query
  Afters : List Query
  Transaction : Bool

/-- The Queryer executeQuerySet starts from: Beginx for a transactional
set (working state and snapshot both start at the current database
state), the plain handle otherwise. -/
def initOp {σ : Type} (transaction : Bool) (dbState : σ) : Queryer σ :=
  match transaction with
  | true => .tx dbState dbState
  | false => .db dbState

/-- executeQuerySet from main.go: run befores, mains (keeping their
rows), afters; on the first failure roll back if a transaction is open
(best effort, its own outcome discarded) and return that failure; on full
success commit (best effort) and return the concatenated main rows. The
returned state is the observable database state afterwards. Beginx is
modelled as always succeeding (in the code its failure is returned
directly before any statement runs); the outcomes of Rollback and Commit
are discarded by the code and modelled as the snapshot restore and the
working-state publish of the backend. -/
def executeQuerySet {σ : Type} (drv : Driver σ) (querySet : QuerySet)
    (paramMap : ParamMap) (dbState : σ) : Except GoError (List OutRow) × σ :=
  match executeQueries drv querySet.Befores paramMap
      (initOp querySet.Transaction dbState) with
  | (.error e, op2) => (.error e, rollbackPossibly op2)
  | (.ok _, op1) =>
    match executeQueriesRowMaps drv querySet.Queries paramMap op1 with
    | (.error e, op2) => (.error e, rollbackPossibly op2)
    | (.ok rowMaps, op2) =>
      match executeQueries drv querySet.Afters paramMap op2 with
      | (.error e, op3) => (.error e, rollbackPossibly op3)
      | (.ok _, op3) => (.ok rowMaps, commitPossibly op3)

/-! ### HTTP handler -/

/-- The response payload. Rows is an Option: none models the zero-value
nil slice of the error response, which encoding/json renders as null;
some models a non-nil slice rendered as a JSON array. -/
structure Response where
  Success : Bool
  Rows : Option (List OutRow)
  ErrorType : String
  ErrorDescription : String
deriving DecidableEq

/-- createErrorResponseBytes from main.go: the failure payload, with the
error classified by getErrorType and described by its message. -/
def createErrorResponseBytes (e : GoError) : Response :=
  { Success := false, Rows := none, ErrorType := getErrorType e,
    ErrorDescription := e.msg }

/-- createHandler from main.go: the handler writes status 200 first, then
resolves parameters and executes the query set, writing either the error
payload or the success payload. The result pairs the HTTP status with the
payload, alongside the observable database state. -/
def createHandler {σ : Type} (drv : Driver σ) (q : QuerySet) (req : Request)
    (dbState : σ) : (Nat × Response) × σ :=
  match createParamMap req with
  | .error e => ((200, createErrorResponseBytes e), dbState)
  | .ok paramMap =>
    match executeQuerySet drv q paramMap dbState with
    | (.error e, s2) => ((200, createErrorResponseBytes e), s2)
    | (.ok rowMaps, s2) =>
      ((200, ⟨true, some rowMaps, "", ""⟩), s2)

/-! ### Lookup lemmas for the parameter folds -/

theorem foldl_insert_not_mem {γ : Type} (f : γ → Value) (l : List (String × γ))
    (m : ParamMap) (k : String) (hk : ∀ p ∈ l, p.1 ≠ k) :
    (l.foldl (fun m p => m.insert p.1 (f p.2)) m) k = m k := by
  induction l generalizing m with
  | nil => rfl
  | cons x xs ih =>
    rw [List.foldl_cons]
    rw [ih _ (fun p hp => hk p (List.mem_cons_of_mem x hp))]
    have hx : x.1 ≠ k := hk x (List.mem_cons_self x xs)
    simp only [ParamMap.insert]
    rw [if_neg (fun h => hx h.symm)]

theorem foldl_insert_mem {γ : Type} (f : γ → Value) (l : List (String × γ))
    (m : ParamMap) (k : String) (v : γ) (hn : (l.map Prod.fst).Nodup)
    (hkv : (k, v) ∈ l) :
    (l.foldl (fun m p => m.insert p.1 (f p.2)) m) k = some (f v) := by
  induction l generalizing m with
  | nil => cases hkv
  | cons x xs ih =>
    rw [List.map_cons, List.nodup_cons] at hn
    rw [List.foldl_cons]
    rcases List.mem_cons.mp hkv with h1 | h1
    · subst h1
      have hk1 : k ∉ xs.map Prod.fst := by simpa using hn.1
      have hnot : ∀ p ∈ xs, p.1 ≠ k := by
        intro p hp hpk
        apply hk1
        rw [← hpk]
        exact List.mem_map_of_mem Prod.fst hp
      rw [foldl_insert_not_mem f xs _ k hnot]
      simp [ParamMap.insert]
    · exact ih _ hn.2 h1

theorem applyUrlQuery_not_mem (q : List (String × List String)) (m : ParamMap)
    (k : String) (hk : ∀ p ∈ q, p.1 ≠ k) :
    applyUrlQuery q m k = m k := by
  induction q generalizing m with
  | nil => rfl
  | cons x xs ih =>
    rw [applyUrlQuery, List.foldl_cons]
    rw [show List.foldl _ _ xs = applyUrlQuery xs _ from rfl]
    rw [ih _ (fun p hp => hk p (List.mem_cons_of_mem x hp))]
    have hx : x.1 ≠ k := hk x (List.mem_cons_self x xs)
    match x, hx with
    | (xk, []), hx => rfl
    | (xk, xv :: xvs), hx =>
      simp only [ParamMap.insert]
      rw [if_neg (fun h => hx h.symm)]

theorem applyUrlQuery_mem_cons (q : List (String × List String)) (m : ParamMap)
    (k v : String) (vs : List String) (hn : (q.map Prod.fst).Nodup)
    (h : (k, v :: vs) ∈ q) :
    applyUrlQuery q m k = some (Value.str v) := by
  induction q generalizing m with
  | nil => cases h
  | cons x xs ih =>
    rw [List.map_cons, List.nodup_cons] at hn
    rw [applyUrlQuery, List.foldl_cons]
    rw [show List.foldl _ _ xs = applyUrlQuery xs _ from rfl]
    rcases List.mem_cons.mp h with h1 | h1
    · subst h1
      have hk1 : k ∉ xs.map Prod.fst := by simpa using hn.1
      have hnot : ∀ p ∈ xs, p.1 ≠ k := by
        intro p hp hpk
        apply hk1
        rw [← hpk]
        exact List.mem_map_of_mem Prod.fst hp
      rw [applyUrlQuery_not_mem xs _ k hnot]
      simp [ParamMap.insert]
    · exact ih _ hn.2 h1

theorem applyUrlQuery_mem_nil (q : List (String × List String)) (m : ParamMap)
    (k : String) (hn : (q.map Prod.fst).Nodup) (h : (k, ([] : List String)) ∈ q) :
    applyUrlQuery q m k = m k := by
  induction q generalizing m with
  | nil => cases h
  | cons x xs ih =>
    rw [List.map_cons, List.nodup_cons] at hn
    rw [applyUrlQuery, List.foldl_cons]
    rw [show List.foldl _ _ xs = applyUrlQuery xs _ from rfl]
    rcases List.mem_cons.mp h with h1 | h1
    · subst h1
      have hk1 : k ∉ xs.map Prod.fst := by simpa using hn.1
      have hnot : ∀ p ∈ xs, p.1 ≠ k := by
        intro p hp hpk
        apply hk1
        rw [← hpk]
        exact List.mem_map_of_mem Prod.fst hp
      exact applyUrlQuery_not_mem xs _ k hnot
    · have hx1 : x.1 ≠ k := by
        intro hq
        apply hn.1
        rw [hq]
        exact List.mem_map_of_mem Prod.fst h1
      rw [ih _ hn.2 h1]
      match x, hx1 with
      | (xk, []), hx1 => rfl
      | (xk, xv :: xvs), hx1 =>
        simp only [ParamMap.insert]
        rw [if_neg (fun hh => hx1 hh.symm)]

/-! ### Transaction threading lemmas

A statement only reads and writes the working state of the Queryer it
runs on, so a run on an open transaction is the run on the plain handle
over the same working state, with the snapshot carried along. -/

theorem executeRowMaps_tx {σ : Type} (drv : Driver σ) (q : Query) (pm : ParamMap)
    (snap s : σ) :
    executeRowMaps drv q pm (.tx snap s)
      = ((executeRowMaps drv q pm (.db s)).1,
          .tx snap (executeRowMaps drv q pm (.db s)).2.cur) := by
  unfold executeRowMaps
  simp only [Queryer.cur]
  cases q.ExecuteWithArgMap drv pm s with
  | error e => rfl
  | ok p =>
    rcases p with ⟨cursor, s2⟩
    dsimp only
    cases createMapSliceFromRows cursor with
    | error e => rfl
    | ok res => rfl

theorem executeRowMaps_db_shape {σ : Type} (drv : Driver σ) (q : Query)
    (pm : ParamMap) (s : σ) :
    (executeRowMaps drv q pm (.db s)).2
      = .db (executeRowMaps drv q pm (.db s)).2.cur := by
  unfold executeRowMaps
  simp only [Queryer.cur]
  cases q.ExecuteWithArgMap drv pm s with
  | error e => rfl
  | ok p =>
    rcases p with ⟨cursor, s2⟩
    dsimp only
    cases createMapSliceFromRows cursor with
    | error e => rfl
    | ok res => rfl

theorem executeQueriesRowMaps_tx {σ : Type} (drv : Driver σ) (qs : List Query)
    (pm : ParamMap) (snap s : σ) :
    executeQueriesRowMaps drv qs pm (.tx snap s)
      = ((executeQueriesRowMaps drv qs pm (.db s)).1,
          .tx snap (executeQueriesRowMaps drv qs pm (.db s)).2.cur) := by
  induction qs generalizing s with
  | nil => rfl
  | cons q rest ih =>
    rw [executeQueriesRowMaps, executeQueriesRowMaps, executeRowMaps_tx]
    rcases h1 : executeRowMaps drv q pm (.db s) with ⟨r1, op2⟩
    have hshape : op2 = .db op2.cur := by
      have := executeRowMaps_db_shape drv q pm s
      rw [h1] at this
      exact this
    cases r1 with
    | error e => simp
    | ok rows =>
      simp only
      obtain ⟨s2, rfl⟩ : ∃ s2, op2 = Queryer.db s2 := ⟨op2.cur, hshape⟩
      simp only [Queryer.cur]
      rw [ih s2]
      rcases h2 : executeQueriesRowMaps drv rest pm (.db s2) with ⟨r2, op3⟩
      cases r2 with
      | error e => rfl
      | ok more => rfl

theorem executeQueriesRowMaps_db_shape {σ : Type} (drv : Driver σ) (qs : List Query)
    (pm : ParamMap) (s : σ) :
    (executeQueriesRowMaps drv qs pm (.db s)).2
      = .db (executeQueriesRowMaps drv qs pm (.db s)).2.cur := by
  induction qs generalizing s with
  | nil => rfl
  | cons q rest ih =>
    rw [executeQueriesRowMaps]
    rcases h1 : executeRowMaps drv q pm (.db s) with ⟨r1, op2⟩
    have hshape : op2 = .db op2.cur := by
      have := executeRowMaps_db_shape drv q pm s
      rw [h1] at this
      exact this
    cases r1 with
    | error e => simpa using hshape
    | ok rows =>
      simp only
      rw [hshape]
      have := ih op2.cur
      rcases h2 : executeQueriesRowMaps drv rest pm (.db op2.cur) with ⟨r2, op3⟩
      rw [h2] at this
      cases r2 with
      | error e => simpa using this
      | ok more => simpa using this

theorem executeQueries_tx {σ : Type} (drv : Driver σ) (qs : List Query)
    (pm : ParamMap) (snap s : σ) :
    executeQueries drv qs pm (.tx snap s)
      = ((executeQueries drv qs pm (.db s)).1,
          .tx snap (executeQueries drv qs pm (.db s)).2.cur) := by
  rw [executeQueries, executeQueries, executeQueriesRowMaps_tx]
  rcases executeQueriesRowMaps drv qs pm (.db s) with ⟨r, op2⟩
  cases r with
  | error e => rfl
  | ok rows => rfl

theorem executeQueries_db_shape {σ : Type} (drv : Driver σ) (qs : List Query)
    (pm : ParamMap) (s : σ) :
    (executeQueries drv qs pm (.db s)).2
      = .db (executeQueries drv qs pm (.db s)).2.cur := by
  rw [executeQueries]
  have := executeQueriesRowMaps_db_shape drv qs pm s
  rcases h : executeQueriesRowMaps drv qs pm (.db s) with ⟨r, op2⟩
  rw [h] at this
  cases r with
  | error e => simpa using this
  | ok rows => simpa using this

/-! ### Per-query row blocks -/

/-- The rows of each query as a separate block, in query order, threading
the state exactly as executeQueriesRowMaps does. -/
def queryRowsSeq {σ : Type} (drv : Driver σ) (qs : List Query) (pm : ParamMap)
    (op : Queryer σ) : Except GoError (List (List OutRow)) × Queryer σ :=
  match qs with
  | [] => (.ok [], op)
  | q :: rest =>
    match executeRowMaps drv q pm op with
    | (.error e, op2) => (.error e, op2)
    | (.ok rows, op2) =>
      match queryRowsSeq drv rest pm op2 with
      | (.error e, op3) => (.error e, op3)
      | (.ok more, op3) => (.ok (rows :: more), op3)

theorem executeQueriesRowMaps_eq_flatten {σ : Type} (drv : Driver σ) (qs : List Query)
    (pm : ParamMap) (op : Queryer σ) :
    executeQueriesRowMaps drv qs pm op
      = (match queryRowsSeq drv qs pm op with
         | (.error e, op2) => (.error e, op2)
         | (.ok ls, op2) => (.ok ls.flatten, op2)) := by
  induction qs generalizing op with
  | nil => rfl
  | cons q rest ih =>
    rw [executeQueriesRowMaps, queryRowsSeq]
    rcases executeRowMaps drv q pm op with ⟨r1, op2⟩
    cases r1 with
    | error e => rfl
    | ok rows =>
      simp only
      rw [ih op2]
      rcases queryRowsSeq drv rest pm op2 with ⟨r2, op3⟩
      cases r2 with
      | error e => rfl
      | ok more => rfl

theorem queryRowsSeq_length {σ : Type} (drv : Driver σ) (qs : List Query)
    (pm : ParamMap) (op : Queryer σ) (ls : List (List OutRow)) (op2 : Queryer σ)
    (h : queryRowsSeq drv qs pm op = (.ok ls, op2)) : ls.length = qs.length := by
  induction qs generalizing op ls op2 with
  | nil =>
    rw [queryRowsSeq] at h
    simp only [Prod.mk.injEq, Except.ok.injEq] at h
    rw [← h.1]
    rfl
  | cons q rest ih =>
    rw [queryRowsSeq] at h
    split at h
    · simp at h
    · rename_i rows opa heq1
      split at h
      · simp at h
      · rename_i more opb heq2
        simp only [Prod.mk.injEq, Except.ok.injEq] at h
        rw [← h.1, List.length_cons, ih opa more opb heq2]
        rfl

/-! ### Concrete fixtures used by the witnesses -/

/-- Example driver over a counter state: the statement INC bumps the
counter and returns no rows, FAIL fails, Q2 returns two one-column rows,
EMPTY returns no rows, and any other statement returns one row. -/
def testDrv : Driver Nat :=
  ⟨fun stmt _ s =>
    if stmt = "INC" then .ok ([], s + 1)
    else if stmt = "FAIL" then .error ⟨.externalErr, "boom"⟩
    else if stmt = "Q2" then
      .ok ([.ok [("b", .int 2)], .ok [("c", .int 3)]], s)
    else if stmt = "EMPTY" then .ok ([], s)
    else .ok ([.ok [("a", .int 1)]], s)⟩

/-- A request carrying nothing: no path parameters, empty body, no URL query. -/
def reqEmpty : Request := ⟨[], .eof, []⟩

/-- The request of the precedence scenario: path parameter id=1, body
field id=2, URL query id=3. -/
def reqPrecedence : Request :=
  ⟨[("id", "1")], .object [("id", Value.num 2)], [("id", ["3"])]⟩

/-- A query set whose single main query was compiled from a template
referencing only the placeholder named missing. -/
def qsMissing : QuerySet :=
  ⟨[], [newQuery "SELECT * FROM test WHERE id = \x7b\x7bmissing\x7d\x7d"], [], false⟩

/-! ### Claims -/

/-- C1: compiling a SQL template produces ArgKeys with exactly one entry
per placeholder occurrence, in left-to-right source order with duplicates
preserved, and a rewritten statement in which every occurrence is
replaced by a question mark, so ArgKeys corresponds one to one and in
order with the markers: the template decomposes into literal and
placeholder tokens; ArgKeys is the placeholder-name sequence of that
decomposition, the rewritten statement replaces exactly the placeholder
tokens by question marks, every captured name is a nonempty word run, and
no placeholder occurrence is missed by the scan. -/
theorem newQuery_compile_spec (qs : String) :
    ∃ ts : List TemplateTok,
      renderToks ts = qs.data ∧
      (newQuery qs).ArgKeys = phNames ts ∧
      (newQuery qs).stmt.data = rewriteToks ts ∧
      (newQuery qs).ArgKeys.length = (ts.filter isPh).length ∧
      (∀ t ∈ ts, wfTok t) ∧ leftmostScan ts := by
  obtain ⟨ts, h1, h2, h3, h4⟩ := scanTemplate_spec qs.data
  refine ⟨ts, h1, ?_, ?_, ?_, h3, h4⟩
  · show (scanTemplate qs.data).1 = _
    rw [h2]
  · show (scanTemplate qs.data).2 = _
    rw [h2]
  · show (scanTemplate qs.data).1.length = _
    rw [h2]
    exact phNames_length ts

/-- C6: getErrorType returns QueryExecutionError for every error value,
because the named type QueryExecutionError is an interface identical to
error, which every dynamic error type implements; hence the Unknown
fallthrough is unreachable for errors and a response ErrorType is only
ever empty or QueryExecutionError. -/
theorem getErrorType_always_queryExecutionError :
    (∀ e : GoError, getErrorType e = "QueryExecutionError") ∧
    (∀ (σ : Type) (drv : Driver σ) (q : QuerySet) (req : Request) (d : σ),
      (createHandler drv q req d).1.2.ErrorType = "" ∨
      (createHandler drv q req d).1.2.ErrorType = "QueryExecutionError") := by
  have hall : ∀ e : GoError, getErrorType e = "QueryExecutionError" := by
    intro e
    rw [getErrorType]
    cases e.dynType <;> rfl
  refine ⟨hall, ?_⟩
  intro σ drv q req d
  unfold createHandler
  cases createParamMap req with
  | error e => right; exact hall e
  | ok pm =>
    dsimp only
    rcases executeQuerySet drv q pm d with ⟨r, s2⟩
    cases r with
    | error e => right; exact hall e
    | ok rows => left; rfl

/-- C8: the handler answers HTTP status 200 for every request, whether
parameter resolution and execution succeed or fail; failure shows only in
the payload. -/
theorem createHandler_always_200 {σ : Type} (drv : Driver σ) (q : QuerySet)
    (req : Request) (d : σ) : (createHandler drv q req d).1.1 = 200 := by
  unfold createHandler
  cases createParamMap req with
  | error e => rfl
  | ok pm =>
    dsimp only
    rcases executeQuerySet drv q pm d with ⟨r, s2⟩
    cases r with
    | error e => rfl
    | ok rows => rfl

/-- C9: when the main queries succeed with zero rows, the response is the
success payload with Success true and Rows the present-but-empty array
(not the absent null slice). -/
theorem createHandler_zero_rows {σ : Type} (drv : Driver σ) (q : QuerySet)
    (req : Request) (d : σ) (pm : ParamMap) (s2 : σ)
    (hpm : createParamMap req = .ok pm)
    (hex : executeQuerySet drv q pm d = (.ok [], s2)) :
    createHandler drv q req d = ((200, ⟨true, some [], "", ""⟩), s2) := by
  unfold createHandler
  rw [hpm]
  dsimp only
  rw [hex]

theorem createHandler_zero_rows_witness :
    createParamMap reqEmpty = .ok (applyUrlQuery [] (ParamMap.empty)) ∧
    executeQuerySet testDrv ⟨[], [⟨"EMPTY", []⟩], [], false⟩
        (applyUrlQuery [] (ParamMap.empty)) 0 = (.ok [], 0) ∧
    createHandler testDrv ⟨[], [⟨"EMPTY", []⟩], [], false⟩ reqEmpty 0
      = ((200, ⟨true, some [], "", ""⟩), 0) :=
  ⟨rfl, rfl, createHandler_zero_rows testDrv ⟨[], [⟨"EMPTY", []⟩], [], false⟩
    reqEmpty 0 (applyUrlQuery [] (ParamMap.empty)) 0 rfl rfl⟩

/-- C10: materialization wraps exactly the byte-payload values in the
mapString wrapper, whose rendering is the bytes verbatim as a JSON string
token and not the base64 rendering of a bare byte slice, and passes every
other native kind through unchanged: the code conversion agrees with the
spec-side wrapping on every cursor of scan-clean rows. -/
theorem createMapSliceFromRows_wraps_bytes (rows : List DriverRow) :
    createMapSliceFromRows (rows.map Except.ok)
      = .ok (rows.map (fun r => r.map (fun kv => (kv.1, specWrapValue kv.2)))) ∧
    (∀ bs, specWrapValue (.bytes bs) = .mapString bs ∧
      marshalOutValue (.mapString bs) = .textStr bs ∧
      marshalOutValue (.mapString bs) ≠ .base64Str bs) ∧
    (∀ n, specWrapValue (.int n) = .native (.int n) ∧
      marshalOutValue (.native (.int n)) = .num n) ∧
    (∀ b, specWrapValue (.bool b) = .native (.bool b) ∧
      marshalOutValue (.native (.bool b)) = .bool b) ∧
    (specWrapValue .null = .native .null ∧
      marshalOutValue (.native .null) = .null) := by
  refine ⟨?_, fun bs => ⟨rfl, rfl, by simp [marshalOutValue]⟩,
    fun n => ⟨rfl, rfl⟩, fun b => ⟨rfl, rfl⟩, rfl, rfl⟩
  induction rows with
  | nil => rfl
  | cons r rest ih =>
    have hrow : ∀ rr : DriverRow,
        rr.map (fun kv =>
          match kv.2 with
          | .bytes str => (kv.1, OutValue.mapString str)
          | v => (kv.1, OutValue.native v))
          = rr.map (fun kv => (kv.1, specWrapValue kv.2)) := by
      intro rr
      induction rr with
      | nil => rfl
      | cons kv rest2 ih2 =>
        rcases kv with ⟨k, v⟩
        rw [List.map_cons, List.map_cons, ih2]
        cases v <;> rfl
    rw [List.map_cons, List.map_cons, createMapSliceFromRows, ih]
    rw [Except.map, hrow r]

theorem foldl_insert_id_not_mem (l : List (String × Value)) (m : ParamMap)
    (k : String) (hk : ∀ p ∈ l, p.1 ≠ k) :
    (l.foldl (fun m p => m.insert p.1 p.2) m) k = m k :=
  foldl_insert_not_mem (fun x => x) l m k hk

theorem foldl_insert_id_mem (l : List (String × Value)) (m : ParamMap)
    (k : String) (v : Value) (hn : (l.map Prod.fst).Nodup) (hkv : (k, v) ∈ l) :
    (l.foldl (fun m p => m.insert p.1 p.2) m) k = some v :=
  foldl_insert_mem (fun x => x) l m k v hn hkv

/-- C3: the resolved parameter map applies path parameters first, then
overwrites with body fields, then overwrites with URL query values, so a
name present in several sources resolves to the URL query value, then the
body value, then the path value. -/
theorem createParamMap_precedence (req : Request) (fields : List (String × Value))
    (pm : ParamMap) (k : String)
    (hbody : req.body = .object fields)
    (hnq : (req.urlQuery.map Prod.fst).Nodup)
    (hnb : (fields.map Prod.fst).Nodup)
    (hnp : (req.pathParams.map Prod.fst).Nodup)
    (hpm : createParamMap req = .ok pm) :
    (∀ v vs, (k, v :: vs) ∈ req.urlQuery → pm k = some (Value.str v)) ∧
    ((∀ p ∈ req.urlQuery, p.1 ≠ k) →
      ∀ v, (k, v) ∈ fields → pm k = some v) ∧
    ((∀ p ∈ req.urlQuery, p.1 ≠ k) → (∀ p ∈ fields, p.1 ≠ k) →
      ∀ s, (k, s) ∈ req.pathParams → pm k = some (Value.str s)) := by
  rw [createParamMap] at hpm
  rw [hbody] at hpm
  dsimp only at hpm
  simp only [Except.ok.injEq] at hpm
  subst hpm
  refine ⟨?_, ?_, ?_⟩
  · intro v vs hmem
    exact applyUrlQuery_mem_cons _ _ k v vs hnq hmem
  · intro hq v hmem
    rw [applyUrlQuery_not_mem _ _ k hq]
    exact foldl_insert_id_mem fields _ k v hnb hmem
  · intro hq hb s hmem
    rw [applyUrlQuery_not_mem _ _ k hq]
    rw [foldl_insert_id_not_mem fields _ k hb]
    exact foldl_insert_mem Value.str req.pathParams _ k s hnp hmem

theorem createParamMap_precedence_witness :
    ∃ pm : ParamMap, createParamMap reqPrecedence = .ok pm ∧
      pm "id" = some (Value.str "3") := by
  refine ⟨_, rfl, ?_⟩
  have h := createParamMap_precedence reqPrecedence [("id", Value.num 2)] _ "id"
    rfl (by decide) (by decide) (by decide) rfl
  exact h.1 "3" [] (by simp [reqPrecedence])

/-- C5 counterexample: for the missing-placeholder scenario the payload
field ErrorType is QueryExecutionError, not Unknown, and the description
carries the wrapping prefix, so the payload of the claim does not occur. -/
theorem qsMissing_response_counterexample :
    (createHandler testDrv qsMissing reqEmpty 0).1.2
        = ⟨false, none, "QueryExecutionError",
            "failed to execute query: unknown argument name: missing"⟩ ∧
    (createHandler testDrv qsMissing reqEmpty 0).1.2
        ≠ ⟨false, none, "Unknown", "unknown argument name: missing"⟩ := by
  constructor
  · rfl
  · decide

/-- C5 amended: a rule whose single main query references the placeholder
named missing, on a request supplying no parameter of that name, fails
before touching the driver (no rows are produced, the state is
unchanged) and the payload is success false, ErrorType
QueryExecutionError, ErrorDescription failed to execute query colon
unknown argument name colon missing. -/
theorem qsMissing_response {σ : Type} (drv : Driver σ) (d : σ) :
    createHandler drv qsMissing reqEmpty d
      = ((200, ⟨false, none, "QueryExecutionError",
          "failed to execute query: unknown argument name: missing"⟩), d) := rfl

/-- Characterization of a transactional run by the plain run: the result
value is the same; the observable state is the starting state on failure
(rollback to the snapshot) and the plain final state on success
(commit). -/
theorem executeQuerySet_tx_char {σ : Type} (drv : Driver σ) (B Q A : List Query)
    (pm : ParamMap) (d : σ) :
    executeQuerySet drv ⟨B, Q, A, true⟩ pm d
      = (match executeQuerySet drv ⟨B, Q, A, false⟩ pm d with
         | (.error e, _) => (.error e, d)
         | (.ok rows, s2) => (.ok rows, s2)) := by
  unfold executeQuerySet initOp
  dsimp only
  rw [executeQueries_tx]
  rcases hB : executeQueries drv B pm (.db d) with ⟨rB, opB⟩
  have hshB : opB = .db opB.cur := by
    have := executeQueries_db_shape drv B pm d
    rw [hB] at this
    exact this
  obtain ⟨sB, rfl⟩ : ∃ x, opB = Queryer.db x := ⟨opB.cur, hshB⟩
  cases rB with
  | error e => rfl
  | ok u =>
    dsimp only [Queryer.cur]
    rw [executeQueriesRowMaps_tx]
    rcases hQ : executeQueriesRowMaps drv Q pm (.db sB) with ⟨rQ, opQ⟩
    have hshQ : opQ = .db opQ.cur := by
      have := executeQueriesRowMaps_db_shape drv Q pm sB
      rw [hQ] at this
      exact this
    obtain ⟨sQ, rfl⟩ : ∃ x, opQ = Queryer.db x := ⟨opQ.cur, hshQ⟩
    cases rQ with
    | error e => rfl
    | ok rows =>
      dsimp only [Queryer.cur]
      rw [executeQueries_tx]
      rcases hA : executeQueries drv A pm (.db sQ) with ⟨rA, opA⟩
      have hshA : opA = .db opA.cur := by
        have := executeQueries_db_shape drv A pm sQ
        rw [hA] at this
        exact this
      obtain ⟨sA, rfl⟩ : ∃ x, opA = Queryer.db x := ⟨opA.cur, hshA⟩
      cases rA with
      | error e => rfl
      | ok u2 => rfl

/-- C2: for a transactional query set, when any before, main or after
statement fails (that is, the same sequence run without a transaction
fails with some error), the transactional run returns exactly that
error — never a rollback-related one — and the observable state is the
starting state: no effect of the query set remains. -/
theorem executeQuerySet_transaction_rollback {σ : Type} (drv : Driver σ)
    (B Q A : List Query) (pm : ParamMap) (d : σ) (e : GoError)
    (hfail : (executeQuerySet drv ⟨B, Q, A, false⟩ pm d).1 = .error e) :
    executeQuerySet drv ⟨B, Q, A, true⟩ pm d = (.error e, d) := by
  rw [executeQuerySet_tx_char]
  rcases h : executeQuerySet drv ⟨B, Q, A, false⟩ pm d with ⟨r, s2⟩
  rw [h] at hfail
  cases r with
  | error e2 =>
    have he : e2 = e := by simpa using hfail
    subst he
    rfl
  | ok rows => simp at hfail

theorem executeQuerySet_transaction_rollback_witness :
    (executeQuerySet testDrv ⟨[⟨"INC", []⟩], [⟨"FAIL", []⟩], [], false⟩
        ParamMap.empty 0).1
      = .error (QueryExecutionError (errorsWrap ⟨.externalErr, "boom"⟩
          "failed to execute query")) ∧
    executeQuerySet testDrv ⟨[⟨"INC", []⟩], [⟨"FAIL", []⟩], [], true⟩
        ParamMap.empty 0
      = (.error (QueryExecutionError (errorsWrap ⟨.externalErr, "boom"⟩
          "failed to execute query")), 0) :=
  ⟨rfl, executeQuerySet_transaction_rollback testDrv [⟨"INC", []⟩] [⟨"FAIL", []⟩]
    [] ParamMap.empty 0 _ rfl⟩

/-- C7: for a query set without a transaction, a failure is returned as
is and nothing is rolled back: the observable state is exactly the
working state reached at the failure, so effects of the statements that
ran before the failing one are retained. Stated for a failure in each of
the three phases. -/
theorem executeQuerySet_no_transaction_keeps_effects {σ : Type} (drv : Driver σ)
    (B Q A : List Query) (pm : ParamMap) (d : σ) :
    (∀ e op2, executeQueries drv B pm (.db d) = (.error e, op2) →
      executeQuerySet drv ⟨B, Q, A, false⟩ pm d = (.error e, op2.cur)) ∧
    (∀ s1 e op2, executeQueries drv B pm (.db d) = (.ok (), .db s1) →
      executeQueriesRowMaps drv Q pm (.db s1) = (.error e, op2) →
      executeQuerySet drv ⟨B, Q, A, false⟩ pm d = (.error e, op2.cur)) ∧
    (∀ s1 s2 rows e op2, executeQueries drv B pm (.db d) = (.ok (), .db s1) →
      executeQueriesRowMaps drv Q pm (.db s1) = (.ok rows, .db s2) →
      executeQueries drv A pm (.db s2) = (.error e, op2) →
      executeQuerySet drv ⟨B, Q, A, false⟩ pm d = (.error e, op2.cur)) := by
  refine ⟨?_, ?_, ?_⟩
  · intro e op2 hB
    have hsh : op2 = .db op2.cur := by
      have := executeQueries_db_shape drv B pm d
      rw [hB] at this
      exact this
    obtain ⟨x, rfl⟩ : ∃ x, op2 = Queryer.db x := ⟨op2.cur, hsh⟩
    unfold executeQuerySet initOp
    dsimp only
    rw [hB]
    rfl
  · intro s1 e op2 hB hQ
    have hsh : op2 = .db op2.cur := by
      have := executeQueriesRowMaps_db_shape drv Q pm s1
      rw [hQ] at this
      exact this
    obtain ⟨x, rfl⟩ : ∃ x, op2 = Queryer.db x := ⟨op2.cur, hsh⟩
    unfold executeQuerySet initOp
    dsimp only
    rw [hB]
    dsimp only
    rw [hQ]
    rfl
  · intro s1 s2 rows e op2 hB hQ hA
    have hsh : op2 = .db op2.cur := by
      have := executeQueries_db_shape drv A pm s2
      rw [hA] at this
      exact this
    obtain ⟨x, rfl⟩ : ∃ x, op2 = Queryer.db x := ⟨op2.cur, hsh⟩
    unfold executeQuerySet initOp
    dsimp only
    rw [hB]
    dsimp only
    rw [hQ]
    dsimp only
    rw [hA]
    rfl

theorem executeQuerySet_no_transaction_witness :
    executeQueries testDrv [⟨"INC", []⟩] ParamMap.empty (.db 0) = (.ok (), .db 1) ∧
    executeQueriesRowMaps testDrv [⟨"FAIL", []⟩] ParamMap.empty (.db 1)
      = (.error (QueryExecutionError (errorsWrap ⟨.externalErr, "boom"⟩
          "failed to execute query")), .db 1) ∧
    executeQuerySet testDrv ⟨[⟨"INC", []⟩], [⟨"FAIL", []⟩], [], false⟩
        ParamMap.empty 0
      = (.error (QueryExecutionError (errorsWrap ⟨.externalErr, "boom"⟩
          "failed to execute query")), 1) ∧
    (1 : Nat) ≠ 0 :=
  ⟨rfl, rfl,
    (executeQuerySet_no_transaction_keeps_effects testDrv [⟨"INC", []⟩]
      [⟨"FAIL", []⟩] [] ParamMap.empty 0).2.1 1 _ (.db 1) rfl rfl,
    by decide⟩

/-- C4: when a query set executes successfully, the returned row sequence
is exactly the concatenation, in statement order, of the row blocks
produced by the main statements alone: the befores contribute no rows
(their results are discarded) and the afters run after the rows are
already fixed. -/
theorem executeQuerySet_rows_are_main_rows {σ : Type} (drv : Driver σ)
    (qs : QuerySet) (pm : ParamMap) (d : σ) (rows : List OutRow) (s2 : σ)
    (h : executeQuerySet drv qs pm d = (.ok rows, s2)) :
    ∃ op1 perQ op2,
      executeQueries drv qs.Befores pm (initOp qs.Transaction d) = (.ok (), op1) ∧
      queryRowsSeq drv qs.Queries pm op1 = (.ok perQ, op2) ∧
      perQ.length = qs.Queries.length ∧
      rows = perQ.flatten := by
  unfold executeQuerySet at h
  split at h
  · simp at h
  · rename_i u op1 hB
    split at h
    · simp at h
    · rename_i rows2 op2 hQ
      split at h
      · simp at h
      · rename_i u2 op3 hA
        simp only [Prod.mk.injEq, Except.ok.injEq] at h
        rw [executeQueriesRowMaps_eq_flatten] at hQ
        split at hQ
        · simp at hQ
        · rename_i ls opx hseq
          simp only [Prod.mk.injEq, Except.ok.injEq] at hQ
          cases u
          refine ⟨op1, ls, opx, hB, hseq,
            queryRowsSeq_length drv qs.Queries pm op1 ls opx hseq, ?_⟩
          rw [← h.1, ← hQ.1]

theorem executeQuerySet_rows_witness :
    executeQuerySet testDrv ⟨[], [⟨"Q1", []⟩, ⟨"Q2", []⟩], [], false⟩
        ParamMap.empty 0
      = (.ok [[("a", OutValue.native (.int 1))], [("b", OutValue.native (.int 2))],
          [("c", OutValue.native (.int 3))]], 0) ∧
    (∃ op1 perQ op2,
      executeQueries testDrv [] ParamMap.empty (initOp false 0) = (.ok (), op1) ∧
      queryRowsSeq testDrv [⟨"Q1", []⟩, ⟨"Q2", []⟩] ParamMap.empty op1
        = (.ok perQ, op2) ∧
      perQ.length = 2 ∧
      [[("a", OutValue.native (.int 1))], [("b", OutValue.native (.int 2))],
        [("c", OutValue.native (.int 3))]] = perQ.flatten) :=
  ⟨rfl, executeQuerySet_rows_are_main_rows testDrv
    ⟨[], [⟨"Q1", []⟩, ⟨"Q2", []⟩], [], false⟩ ParamMap.empty 0 _ 0 rfl⟩

end Miq
